import Mathlib

/-!
Verification of the RebalanceX rebalancing engine and transfer executor.

The development shallowly embeds the TypeScript sources:
  - src/types.ts and the rebalancing engine (calculateDeviations,
    needsRebalancing, generateActions, parseTargetAllocation),
  - src/monitor.ts (calculateAllocations),
  - src/executors/arc.ts (withRetry, isRetryableError, approveUSDC,
    executeTransfer).

Modelling conventions:
  - JavaScript numbers are modelled as exact rationals.
  - JavaScript BigInt values are modelled as unbounded integers; BigInt
    division truncates toward zero, so it is modelled by Int.tdiv.
  - JavaScript Math.round rounds half toward positive infinity, modelled
    by jsRound below.
  - Array.prototype.sort with a consistent comparator is a stable sort;
    the comparator (a, b) => b.deviation - a.deviation therefore yields
    the stable descending insertion sort sortByDevDesc below.
  - The while loop of generateActions advances at least one of its two
    cursors per iteration, so it performs at most
    overAllocated.length + underAllocated.length iterations; pairLoop
    runs the loop body on exactly that much fuel, and when the fuel hits
    zero both lists are already empty, so the fuel base case returns the
    same value as the loop exit.
  - Effectful steps (on-chain calls, HTTP polls) are modelled by oracle
    arguments giving each attempt an Except outcome; thrown exceptions
    are Except.error values.
-/

namespace RebalanceX

/-- The four supported chains of src/types.ts. -/
inductive ChainName where
  | sepolia
  | polygonAmoy
  | arbitrumSepolia
  | arc
deriving DecidableEq

/-- Chain configuration record of src/types.ts. -/
structure ChainConfig where
  name : ChainName
  chainId : Nat
  rpcUrl : String
  usdcAddress : String
  tokenMessenger : String
  messageTransmitter : String
  cctpDomain : Nat
deriving DecidableEq

/-- Per-chain balance record of src/types.ts: balance is a BigInt,
percentage a JavaScript number. -/
structure ChainBalance where
  chain : ChainName
  balance : Int
  percentage : ℚ
deriving DecidableEq

/-- Target allocation record of src/types.ts. -/
structure TargetAllocation where
  chain : ChainName
  percentage : ℚ
deriving DecidableEq

/-- Deviation record of src/types.ts. -/
structure Deviation where
  chain : ChainName
  current : ℚ
  target : ℚ
  deviation : ℚ
deriving DecidableEq

/-- Rebalancing action of src/types.ts. The source fields from and to are
renamed fromChain and toChain (from is a Lean keyword); the constant
discriminant field holding the literal string transfer is omitted. -/
structure RebalanceAction where
  fromChain : ChainConfig
  toChain : ChainConfig
  amount : Int
deriving DecidableEq

/-- Transfer result of src/types.ts; optional fields are Options. -/
structure TransferResult where
  success : Bool
  burnTxHash : Option String := none
  mintTxHash : Option String := none
  messageHash : Option String := none
  error : Option String := none
deriving DecidableEq

/-- The CHAINS table of src/config.ts, at its default configuration (the
getEnv fallbacks; environment overrides are not modelled). -/
def CHAINS : ChainName → ChainConfig
  | ChainName.sepolia =>
    { name := ChainName.sepolia
      chainId := 11155111
      rpcUrl := "https://ethereum-sepolia-rpc.publicnode.com"
      usdcAddress := "0x1c7D4B196Cb0C7B01d743Fbc6116a902379C7238"
      tokenMessenger := "0x8FE6B999Dc680CcFDD5Bf7EB0974218be2542DAA"
      messageTransmitter := "0xE737e5cEBEEBa77EFE34D4aa090756590b1CE275"
      cctpDomain := 0 }
  | ChainName.polygonAmoy =>
    { name := ChainName.polygonAmoy
      chainId := 80002
      rpcUrl := "https://rpc-amoy.polygon.technology"
      usdcAddress := "0x41E94Eb019C0762f9Bfcf9Fb1E58725BfB0e7582"
      tokenMessenger := "0x8FE6B999Dc680CcFDD5Bf7EB0974218be2542DAA"
      messageTransmitter := "0xE737e5cEBEEBa77EFE34D4aa090756590b1CE275"
      cctpDomain := 7 }
  | ChainName.arbitrumSepolia =>
    { name := ChainName.arbitrumSepolia
      chainId := 421614
      rpcUrl := "https://sepolia-rollup.arbitrum.io/rpc"
      usdcAddress := "0x75faf114eafb1BDbe2F0316DF893fd58CE46AA4d"
      tokenMessenger := "0x8FE6B999Dc680CcFDD5Bf7EB0974218be2542DAA"
      messageTransmitter := "0xE737e5cEBEEBa77EFE34D4aa090756590b1CE275"
      cctpDomain := 3 }
  | ChainName.arc =>
    { name := ChainName.arc
      chainId := 5042002
      rpcUrl := "https://rpc.testnet.arc.network"
      usdcAddress := "0x3600000000000000000000000000000000000000"
      tokenMessenger := "0x8FE6B999Dc680CcFDD5Bf7EB0974218be2542DAA"
      messageTransmitter := "0xE737e5cEBEEBa77EFE34D4aa090756590b1CE275"
      cctpDomain := 26 }

/-- JavaScript Math.round: round half toward positive infinity. -/
def jsRound (q : ℚ) : Int := ⌊q + 1 / 2⌋

/-- The reduce over currentBalances computing the pool total
(src/monitor.ts line 69 and the engine line 128). -/
def totalBalance (balances : List ChainBalance) : Int :=
  balances.foldl (fun sum b => sum + b.balance) 0

/-- calculateAllocations of src/monitor.ts: percentage with two decimal
digits via Number((b.balance * 10000n) / total) / 100, where BigInt
division truncates; zero total short-circuits to all-zero percentages. -/
def calculateAllocations (balances : List ChainBalance) : List ChainBalance :=
  let total := totalBalance balances
  if total = 0 then
    balances.map fun b => { b with percentage := 0 }
  else
    balances.map fun b =>
      { b with percentage := ((Int.tdiv (b.balance * 10000) total : Int) : ℚ) / 100 }

/-- calculateDeviations of the engine: a missing target means target 0. -/
def calculateDeviations (currentBalances : List ChainBalance)
    (targets : List TargetAllocation) : List Deviation :=
  currentBalances.map fun balance =>
    let targetPct : ℚ :=
      match targets.find? (fun t => decide (t.chain = balance.chain)) with
      | some t => t.percentage
      | none => 0
    { chain := balance.chain
      current := balance.percentage
      target := targetPct
      deviation := balance.percentage - targetPct }

/-- needsRebalancing of the engine: some deviation strictly exceeds the
threshold in absolute value. -/
def needsRebalancing (deviations : List Deviation) (threshold : ℚ) : Bool :=
  deviations.any fun d => decide (threshold < |d.deviation|)

/-- Insert one deviation into a descending-sorted list, after any element
with an equal key: together with sortByDevDesc this is the stable
descending sort performed by sort((a, b) => b.deviation - a.deviation). -/
def insertByDevDesc (a : Deviation) : List Deviation → List Deviation
  | [] => [a]
  | x :: xs =>
    if x.deviation ≤ a.deviation then a :: x :: xs else x :: insertByDevDesc a xs

/-- Stable sort of deviations in descending deviation order. -/
def sortByDevDesc : List Deviation → List Deviation
  | [] => []
  | x :: xs => insertByDevDesc x (sortByDevDesc xs)

/-- currentBalances.find of the engine loop body. The source asserts the
result non-null; the default record is unreachable whenever the looked-up
chain occurs in the list, which holds for every chain of a deviation
derived from the same list. -/
def findBal (balances : List ChainBalance) (c : ChainName) : ChainBalance :=
  match balances.find? (fun b => decide (b.chain = c)) with
  | some b => b
  | none => { chain := c, balance := 0, percentage := 0 }

/-- In-place update of the first list entry of the given chain, modelling
the mutation of the object returned by find. -/
def adjustBal (balances : List ChainBalance) (c : ChainName) (delta : Int) :
    List ChainBalance :=
  match balances with
  | [] => []
  | b :: rest =>
    if b.chain = c then { b with balance := b.balance + delta } :: rest
    else b :: adjustBal rest c delta

/-- Target amount of a chain: (totalBalance * BigInt(Math.round(pct * 100)))
/ 10000n with truncating BigInt division. -/
def targetAmount (total : Int) (targetPct : ℚ) : Int :=
  Int.tdiv (total * jsRound (targetPct * 100)) 10000

/-- The two-cursor pairing loop of generateActions (engine lines 149-192).
State: remaining over-allocated and under-allocated deviations, the
balance list the loop body mutates through find, and the actions emitted
so far (accumulated in reverse). The fuel argument only bounds the
iteration count; see the module comment. -/
def pairLoop (total : Int) :
    Nat → List Deviation → List Deviation → List ChainBalance →
    List RebalanceAction → List RebalanceAction × List ChainBalance
  | 0, _, _, balances, actions => (actions.reverse, balances)
  | _ + 1, [], _, balances, actions => (actions.reverse, balances)
  | _ + 1, _ :: _, [], balances, actions => (actions.reverse, balances)
  | fuel + 1, f :: overRest, t :: underRest, balances, actions =>
    let fromBalance := findBal balances f.chain
    let toBalance := findBal balances t.chain
    let excessFrom := fromBalance.balance - targetAmount total f.target
    let deficitTo := targetAmount total t.target - toBalance.balance
    let transferAmount := if excessFrom < deficitTo then excessFrom else deficitTo
    let balances' :=
      if 0 < transferAmount then
        adjustBal (adjustBal balances f.chain (-transferAmount)) t.chain transferAmount
      else balances
    let actions' :=
      if 0 < transferAmount then
        { fromChain := CHAINS f.chain, toChain := CHAINS t.chain,
          amount := transferAmount } :: actions
      else actions
    let overNext := if excessFrom ≤ deficitTo then overRest else f :: overRest
    let underNext := if deficitTo ≤ excessFrom then underRest else t :: underRest
    pairLoop total fuel overNext underNext balances' actions'

/-- generateActions of the engine, returning both the emitted actions and
the balance list as left behind by the loop body mutations (the source
mutates the entries of the caller-supplied currentBalances array). The
write-only adjustments map of the source (engine lines 125-140) has no
effect on any output and is omitted. -/
def generateActionsRun (currentBalances : List ChainBalance)
    (targets : List TargetAllocation) (threshold : ℚ) :
    List RebalanceAction × List ChainBalance :=
  let deviations := calculateDeviations currentBalances targets
  let sorted := sortByDevDesc deviations
  let total := totalBalance currentBalances
  let overAllocated := sorted.filter fun d => decide (threshold < d.deviation)
  let underAllocated := (sorted.filter fun d => decide (d.deviation < -threshold)).reverse
  pairLoop total (overAllocated.length + underAllocated.length)
    overAllocated underAllocated currentBalances []

/-- The action list returned by generateActions. -/
def generateActions (currentBalances : List ChainBalance)
    (targets : List TargetAllocation) (threshold : ℚ) : List RebalanceAction :=
  (generateActionsRun currentBalances targets threshold).1

/-- Whether the first list occurs at the head of the second. -/
def isPrefixChars : List Char → List Char → Bool
  | [], _ => true
  | _ :: _, [] => false
  | a :: as, b :: bs => a == b && isPrefixChars as bs

/-- JavaScript String.prototype.includes on character lists. -/
def containsSub (needle : List Char) : List Char → Bool
  | [] => isPrefixChars needle []
  | c :: rest => isPrefixChars needle (c :: rest) || containsSub needle rest

/-- hay.includes(needle) for strings. -/
def strIncludes (hay needle : String) : Bool :=
  containsSub needle.data hay.data

/-- ASCII lower-casing of one character (the behavior of toLowerCase on
the ASCII messages matched by the executor). -/
def asciiLower (c : Char) : Char :=
  if 'A' ≤ c ∧ c ≤ 'Z' then Char.ofNat (c.toNat + 32) else c

/-- message.toLowerCase() for ASCII strings. -/
def lowerStr (s : String) : String :=
  String.mk (s.data.map asciiLower)

/-- The six non-retryable message fragments of isRetryableError
(src/executors/arc.ts lines 129-136). -/
def nonRetryableMessages : List String :=
  ["insufficient funds", "nonce too low", "replacement transaction underpriced",
   "already known", "invalid signature", "execution reverted"]

/-- The retryable message fragments of isRetryableError (lines 143-154). -/
def retryableMessages : List String :=
  ["timeout", "network error", "rate limit", "server error", "502", "503",
   "504", "ETIMEDOUT", "ECONNRESET", "ENOTFOUND"]

/-- isRetryableError of src/executors/arc.ts, over the error message. -/
def isRetryableError (errorMsg : String) : Bool :=
  let message := lowerStr errorMsg
  if nonRetryableMessages.any (fun msg => strIncludes message msg) then
    false
  else
    (retryableMessages.any (fun msg => strIncludes message msg)) || true

/-- Body of the withRetry attempt loop (src/executors/arc.ts lines 90-120).
The operation oracle gives the outcome of each numbered attempt; the
result carries the number of attempts performed. The fuel equals the
number of loop iterations remaining (maxAttempts + 1 - attempt), so the
fuel-zero case is exactly the loop exit, reaching the trailing throw of
the source with zero attempts performed. Sleeps and backoff delays have
no modelled effect. -/
def withRetryGo {α : Type} (operation : Nat → Except String α)
    (maxAttempts : Nat) : Nat → Nat → Except String α × Nat
  | attempt, 0 => (Except.error "operation failed unexpectedly", attempt - 1)
  | attempt, fuel + 1 =>
    match operation attempt with
    | Except.ok v => (Except.ok v, attempt)
    | Except.error e =>
      if attempt = maxAttempts then (Except.error e, attempt)
      else if isRetryableError e = false then (Except.error e, attempt)
      else withRetryGo operation maxAttempts (attempt + 1) fuel

/-- withRetry of src/executors/arc.ts: attempts numbered from 1 up to
maxAttempts; a success returns immediately; a failure on the last attempt
or a non-retryable failure propagates the error. -/
def withRetry {α : Type} (operation : Nat → Except String α)
    (maxAttempts : Nat) : Except String α × Nat :=
  withRetryGo operation maxAttempts 1 maxAttempts

/-- approveUSDC of src/executors/arc.ts over the observed allowance: a
sufficient allowance returns the empty hash at once; otherwise the
approve transaction is submitted under withRetry with maxAttempts 3. The
second component counts submitted approve attempts. -/
def approveUSDC (allowance : Int) (amount : Int)
    (approveAttempts : Nat → Except String String) : Except String String × Nat :=
  if allowance ≥ amount then (Except.ok "", 0)
  else withRetry approveAttempts 3

/-- Outcome of the burn step: transaction hash, message hash and raw
message bytes (src/executors/arc.ts burnUSDC). -/
structure BurnOutcome where
  txHash : String
  messageHash : String
  messageBytes : String
deriving DecidableEq

/-- Outcome of the attestation wait: attestation and message payload. -/
structure AttestationOutcome where
  attestation : String
  message : String
deriving DecidableEq

/-- The try block of executeTransfer: approve, then burn, then wait for
the attestation, then mint; the first failing step aborts the sequence
with its error. -/
def executeTransferSteps (approveRes : Except String String)
    (burnRes : Except String BurnOutcome)
    (attestationRes : Except String AttestationOutcome)
    (mintRes : Except String String) : Except String TransferResult :=
  match approveRes with
  | Except.error e => Except.error e
  | Except.ok _ =>
    match burnRes with
    | Except.error e => Except.error e
    | Except.ok burn =>
      match attestationRes with
      | Except.error e => Except.error e
      | Except.ok _ =>
        match mintRes with
        | Except.error e => Except.error e
        | Except.ok mintTx =>
          Except.ok { success := true, burnTxHash := some burn.txHash,
                      mintTxHash := some mintTx, messageHash := some burn.messageHash }

/-- executeTransfer of src/executors/arc.ts over the step outcomes: dry
run short-circuits to success; otherwise the surrounding try/catch turns
the first failure into a success = false result carrying the message. -/
def executeTransfer (dryRun : Bool) (approveRes : Except String String)
    (burnRes : Except String BurnOutcome)
    (attestationRes : Except String AttestationOutcome)
    (mintRes : Except String String) : TransferResult :=
  if dryRun then { success := true }
  else
    match executeTransferSteps approveRes burnRes attestationRes mintRes with
    | Except.ok r => r
    | Except.error e => { success := false, error := some e }

/-- The message of the first failing step, if any, in pipeline order. -/
def firstFailure (approveRes : Except String String)
    (burnRes : Except String BurnOutcome)
    (attestationRes : Except String AttestationOutcome)
    (mintRes : Except String String) : Option String :=
  match approveRes with
  | Except.error e => some e
  | Except.ok _ =>
    match burnRes with
    | Except.error e => some e
    | Except.ok _ =>
      match attestationRes with
      | Except.error e => some e
      | Except.ok _ =>
        match mintRes with
        | Except.error e => some e
        | Except.ok _ => none

/-- Sum of the percentage fields of a balance list. -/
def sumPercentages (balances : List ChainBalance) : ℚ :=
  (balances.map fun b => b.percentage).sum

end RebalanceX

namespace RebalanceX

/-- The four deterministic-rejection fragments named by the error-handling
design: insufficient funds, stale nonce, underpriced replacement,
reverted execution. -/
def deterministicRejection (msg : String) : Bool :=
  ["insufficient funds", "nonce too low", "replacement transaction underpriced",
   "execution reverted"].any fun m => strIncludes (lowerStr msg) m

lemma isRetryableError_false_of_deterministic {e : String}
    (h : deterministicRejection e = true) : isRetryableError e = false := by
  have hsix : nonRetryableMessages.any (fun msg => strIncludes (lowerStr e) msg) = true := by
    simp only [deterministicRejection, List.any_eq_true] at h
    obtain ⟨m, hm, hinc⟩ := h
    simp only [List.mem_cons, List.not_mem_nil, or_false] at hm
    simp only [nonRetryableMessages, List.any_eq_true]
    refine ⟨m, ?_, hinc⟩
    rcases hm with rfl | rfl | rfl | rfl <;> simp
  simp [isRetryableError, hsix]

lemma withRetryGo_first_error {α : Type} (operation : Nat → Except String α)
    (maxAttempts attempt fuel : Nat) (e : String)
    (hop : operation attempt = Except.error e)
    (hret : isRetryableError e = false) :
    withRetryGo operation maxAttempts attempt (fuel + 1) = (Except.error e, attempt) := by
  unfold withRetryGo
  rw [hop]
  by_cases hk : attempt = maxAttempts
  · simp [hk]
  · simp [hk, hret]

end RebalanceX

/-- Claim C8: needsRebalancing(deviations, threshold) is true exactly when
some deviation has absolute value strictly greater than the threshold, so
a deviation equal to the threshold in absolute value does not trigger. -/
theorem RebalanceX.needsRebalancing_iff
    (deviations : List RebalanceX.Deviation) (threshold : ℚ) :
    RebalanceX.needsRebalancing deviations threshold = true ↔
      ∃ d ∈ deviations, threshold < |d.deviation| := by
  simp [RebalanceX.needsRebalancing, List.any_eq_true]

/-- Claim C10: isRetryableError returns false exactly when the lower-cased
message contains one of the six non-retryable fragments; every other
message is classified retryable, because the retryable-pattern check is
followed by an unconditional default to true. -/
theorem RebalanceX.isRetryableError_false_iff (e : String) :
    RebalanceX.isRetryableError e = false ↔
      RebalanceX.nonRetryableMessages.any
        (fun msg => RebalanceX.strIncludes (RebalanceX.lowerStr e) msg) = true := by
  by_cases h : RebalanceX.nonRetryableMessages.any
      (fun msg => RebalanceX.strIncludes (RebalanceX.lowerStr e) msg) = true
  · simp [RebalanceX.isRetryableError, h]
  · simp [RebalanceX.isRetryableError, h]

/-- Claim C7: when the observed allowance already covers the amount,
approveUSDC submits no approve transaction at all, for every outcome the
submission oracle would have produced, and returns the empty hash. -/
theorem RebalanceX.approveUSDC_sufficient_allowance
    (allowance amount : Int) (approveAttempts : Nat → Except String String)
    (h : amount ≤ allowance) :
    RebalanceX.approveUSDC allowance amount approveAttempts = (Except.ok "", 0) := by
  simp [RebalanceX.approveUSDC, h]

/-- Witness for C7: allowance 100, amount 50: no transaction submitted. -/
theorem RebalanceX.approveUSDC_sufficient_allowance_witness :
    (50 : Int) ≤ 100 ∧
      RebalanceX.approveUSDC 100 50 (fun _ => Except.error "unused") =
        (Except.ok "", 0) :=
  ⟨by decide, RebalanceX.approveUSDC_sufficient_allowance 100 50
    (fun _ => Except.error "unused") (by decide)⟩

/-- Claim C5: if the first attempt of an operation run under withRetry
fails with a deterministic-rejection message, withRetry performs exactly
one attempt and propagates that error. -/
theorem RebalanceX.withRetry_deterministic_single_attempt {α : Type}
    (operation : Nat → Except String α) (maxAttempts : Nat) (e : String)
    (hmax : 1 ≤ maxAttempts) (hop : operation 1 = Except.error e)
    (hdet : RebalanceX.deterministicRejection e = true) :
    RebalanceX.withRetry operation maxAttempts = (Except.error e, 1) := by
  obtain ⟨k, rfl⟩ : ∃ k, maxAttempts = k + 1 :=
    ⟨maxAttempts - 1, by omega⟩
  have hret := RebalanceX.isRetryableError_false_of_deterministic hdet
  exact RebalanceX.withRetryGo_first_error operation (k + 1) 1 k e hop hret

/-- Witness for C5: a first-attempt insufficient-funds failure under the
default three-attempt budget is not retried. -/
theorem RebalanceX.withRetry_deterministic_single_attempt_witness :
    RebalanceX.withRetry (fun _ => (Except.error "insufficient funds for gas" :
      Except String Nat)) 3 = (Except.error "insufficient funds for gas", 1) :=
  RebalanceX.withRetry_deterministic_single_attempt
    (fun _ => Except.error "insufficient funds for gas") 3
    "insufficient funds for gas" (by decide) rfl (by decide)

/-- Claim C6: outside dry-run mode, executeTransfer returns a result whose
success flag is set exactly when no step failed, and whose error field
carries the first failing step's message; a failure never escapes as an
exception, so the cycle controller can continue with remaining actions. -/
theorem RebalanceX.executeTransfer_reports_first_failure
    (approveRes : Except String String)
    (burnRes : Except String RebalanceX.BurnOutcome)
    (attestationRes : Except String RebalanceX.AttestationOutcome)
    (mintRes : Except String String) :
    (RebalanceX.executeTransfer false approveRes burnRes attestationRes
        mintRes).success =
      (RebalanceX.firstFailure approveRes burnRes attestationRes mintRes).isNone ∧
    (RebalanceX.executeTransfer false approveRes burnRes attestationRes
        mintRes).error =
      RebalanceX.firstFailure approveRes burnRes attestationRes mintRes := by
  cases approveRes <;> cases burnRes <;> cases attestationRes <;> cases mintRes <;>
    exact ⟨rfl, rfl⟩

namespace RebalanceX

lemma foldl_add_balance (l : List ChainBalance) (s : Int) :
    l.foldl (fun sum b => sum + b.balance) s = s + (l.map fun b => b.balance).sum := by
  induction l generalizing s with
  | nil => simp
  | cons a t ih => simp [List.foldl_cons, ih, add_assoc]

lemma totalBalance_eq_sum (l : List ChainBalance) :
    totalBalance l = (l.map fun b => b.balance).sum := by
  simp [totalBalance, foldl_add_balance]

lemma int_sum_all_zero (l : List Int) (h : ∀ x ∈ l, 0 ≤ x) (hs : l.sum = 0) :
    ∀ x ∈ l, x = 0 := by
  induction l with
  | nil => simp
  | cons a t ih =>
    simp only [List.sum_cons] at hs
    have ha := h a (by simp)
    have ht : 0 ≤ t.sum := List.sum_nonneg fun x hx => h x (by simp [hx])
    intro x hx
    rcases List.mem_cons.mp hx with rfl | hx
    · omega
    · exact ih (fun y hy => h y (by simp [hy])) (by omega) x hx

lemma balances_all_zero {l : List ChainBalance}
    (h0 : ∀ b ∈ l, 0 ≤ b.balance) (hz : totalBalance l = 0) :
    ∀ b ∈ l, b.balance = 0 := by
  intro b hb
  have := int_sum_all_zero (l.map fun b => b.balance)
    (by intro x hx; obtain ⟨c, hc, rfl⟩ := List.mem_map.mp hx; exact h0 c hc)
    (by rw [← totalBalance_eq_sum]; exact hz)
  exact this b.balance (List.mem_map.mpr ⟨b, hb, rfl⟩)

lemma findBal_balance_zero {bals : List ChainBalance}
    (h : ∀ b ∈ bals, b.balance = 0) (c : ChainName) :
    (findBal bals c).balance = 0 := by
  unfold findBal
  cases hfind : bals.find? (fun b => decide (b.chain = c)) with
  | none => rfl
  | some b => exact h b (List.mem_of_find?_eq_some hfind)

lemma targetAmount_zero (p : ℚ) : targetAmount 0 p = 0 := by
  simp [targetAmount, Int.zero_tdiv]

lemma pairLoop_zero (fuel : Nat) :
    ∀ over under bals acc, (∀ b ∈ bals, b.balance = 0) →
      pairLoop 0 fuel over under bals acc = (acc.reverse, bals) := by
  induction fuel with
  | zero => intro over under bals acc _; rfl
  | succ n ih =>
    intro over under bals acc h
    match over, under with
    | [], _ => rfl
    | _ :: _, [] => rfl
    | f :: overRest, t :: underRest =>
      have hf := findBal_balance_zero h f.chain
      have ht := findBal_balance_zero h t.chain
      simp only [pairLoop, hf, ht, targetAmount_zero, sub_zero, zero_sub, neg_zero,
        lt_self_iff_false, if_false, le_refl, if_true]
      exact ih overRest underRest bals acc h

lemma pairLoop_over_nil (total : Int) (fuel : Nat) (under : List Deviation)
    (bals : List ChainBalance) (acc : List RebalanceAction) :
    pairLoop total fuel [] under bals acc = (acc.reverse, bals) := by
  cases fuel <;> rfl

lemma pairLoop_under_nil (total : Int) (fuel : Nat) (over : List Deviation)
    (bals : List ChainBalance) (acc : List RebalanceAction) :
    pairLoop total fuel over [] bals acc = (acc.reverse, bals) := by
  cases fuel with
  | zero => rfl
  | succ n => cases over <;> rfl

lemma insertByDevDesc_perm (a : Deviation) (l : List Deviation) :
    List.Perm (insertByDevDesc a l) (a :: l) := by
  induction l with
  | nil => simp [insertByDevDesc]
  | cons x xs ih =>
    by_cases h : x.deviation ≤ a.deviation
    · simp [insertByDevDesc, h]
    · simp only [insertByDevDesc, h, if_false]
      exact (ih.cons x).trans (List.Perm.swap a x xs)

lemma sortByDevDesc_perm (l : List Deviation) :
    List.Perm (sortByDevDesc l) l := by
  induction l with
  | nil => simp [sortByDevDesc]
  | cons x xs ih =>
    exact (insertByDevDesc_perm x (sortByDevDesc xs)).trans (ih.cons x)

lemma mem_sortByDevDesc {d : Deviation} {l : List Deviation} :
    d ∈ sortByDevDesc l ↔ d ∈ l :=
  (sortByDevDesc_perm l).mem_iff

end RebalanceX

/-- Claim C4: with a zero total pool of non-negative balances, every
target set and every non-negative threshold, generateActions plans no
transfer at all, and calculateAllocations assigns the zero percentage to
every chain (its division is guarded, so no division fault arises). -/
theorem RebalanceX.generateActions_zero_total
    (currentBalances : List RebalanceX.ChainBalance)
    (targets : List RebalanceX.TargetAllocation) (threshold : ℚ)
    (h0 : ∀ b ∈ currentBalances, 0 ≤ b.balance)
    (hz : RebalanceX.totalBalance currentBalances = 0)
    (_hth : 0 ≤ threshold) :
    RebalanceX.generateActions currentBalances targets threshold = [] ∧
      ∀ b ∈ RebalanceX.calculateAllocations currentBalances, b.percentage = 0 := by
  constructor
  · have hall := RebalanceX.balances_all_zero h0 hz
    simp only [RebalanceX.generateActions, RebalanceX.generateActionsRun, hz]
    rw [RebalanceX.pairLoop_zero _ _ _ _ _ hall]
    rfl
  · intro b hb
    have hcalc : RebalanceX.calculateAllocations currentBalances =
        currentBalances.map (fun b => { b with percentage := 0 }) := by
      simp [RebalanceX.calculateAllocations, hz]
    rw [hcalc] at hb
    obtain ⟨c, _, rfl⟩ := List.mem_map.mp hb
    rfl

/-- Witness for C4: three zero balances, targets 40/30/30, threshold 5. -/
theorem RebalanceX.generateActions_zero_total_witness :
    RebalanceX.generateActions
        [⟨RebalanceX.ChainName.sepolia, 0, 0⟩,
         ⟨RebalanceX.ChainName.polygonAmoy, 0, 0⟩,
         ⟨RebalanceX.ChainName.arbitrumSepolia, 0, 0⟩]
        [⟨RebalanceX.ChainName.sepolia, 40⟩,
         ⟨RebalanceX.ChainName.polygonAmoy, 30⟩,
         ⟨RebalanceX.ChainName.arbitrumSepolia, 30⟩] 5 = [] :=
  (RebalanceX.generateActions_zero_total _ _ 5
    (by intro b hb; fin_cases hb <;> simp)
    (by rfl) (by norm_num)).1

/-- Claim C9: whenever no deviation lies strictly below -threshold, or
symmetrically no deviation lies strictly above threshold, one of the two
filtered cursor lists of the pairing walk is empty, so generateActions
emits no action; together with the witness below this exhibits inputs on
which needsRebalancing triggers while the planner produces zero
transfers. -/
theorem RebalanceX.generateActions_one_sided_empty
    (currentBalances : List RebalanceX.ChainBalance)
    (targets : List RebalanceX.TargetAllocation) (threshold : ℚ)
    (h : (∀ d ∈ RebalanceX.calculateDeviations currentBalances targets,
            d.deviation ≤ threshold) ∨
         (∀ d ∈ RebalanceX.calculateDeviations currentBalances targets,
            -threshold ≤ d.deviation)) :
    RebalanceX.generateActions currentBalances targets threshold = [] := by
  simp only [RebalanceX.generateActions, RebalanceX.generateActionsRun]
  rcases h with h | h
  · have hover : (RebalanceX.sortByDevDesc
        (RebalanceX.calculateDeviations currentBalances targets)).filter
        (fun d => decide (threshold < d.deviation)) = [] := by
      apply List.filter_eq_nil_iff.mpr
      intro d hd
      have hle := h d (RebalanceX.mem_sortByDevDesc.mp hd)
      simp only [decide_eq_true_eq]
      exact not_lt.mpr hle
    rw [hover, RebalanceX.pairLoop_over_nil]
    rfl
  · have hunder : (RebalanceX.sortByDevDesc
        (RebalanceX.calculateDeviations currentBalances targets)).filter
        (fun d => decide (d.deviation < -threshold)) = [] := by
      apply List.filter_eq_nil_iff.mpr
      intro d hd
      have hle := h d (RebalanceX.mem_sortByDevDesc.mp hd)
      simp only [decide_eq_true_eq]
      exact not_lt.mpr hle
    rw [hunder, List.reverse_nil, RebalanceX.pairLoop_under_nil]
    rfl

namespace RebalanceX

/-- Balances at 50/25/25 percent of a 100 USDC pool. -/
def c9Balances : List ChainBalance :=
  [⟨ChainName.sepolia, 50000000, 50⟩, ⟨ChainName.polygonAmoy, 25000000, 25⟩,
   ⟨ChainName.arbitrumSepolia, 25000000, 25⟩]

/-- Targets 40/30/30. -/
def c9Targets : List TargetAllocation :=
  [⟨ChainName.sepolia, 40⟩, ⟨ChainName.polygonAmoy, 30⟩,
   ⟨ChainName.arbitrumSepolia, 30⟩]

lemma c9_all_above :
    ∀ d ∈ calculateDeviations c9Balances c9Targets, -(5 : ℚ) ≤ d.deviation := by
  intro d hd
  simp [calculateDeviations, c9Balances, c9Targets, List.find?] at hd
  rcases hd with rfl | rfl | rfl <;> norm_num

lemma c9_needs :
    needsRebalancing (calculateDeviations c9Balances c9Targets) 5 = true := by
  simp only [needsRebalancing, calculateDeviations, c9Balances, c9Targets,
    List.find?, List.map_cons, List.map_nil, List.any_cons, List.any_nil]
  norm_num

end RebalanceX

/-- Witness for C9: at deviations +10, -5, -5 with threshold 5, the cycle
triggers yet the planner emits no action. -/
theorem RebalanceX.generateActions_one_sided_empty_witness :
    RebalanceX.needsRebalancing
        (RebalanceX.calculateDeviations RebalanceX.c9Balances RebalanceX.c9Targets)
        5 = true ∧
      RebalanceX.generateActions RebalanceX.c9Balances RebalanceX.c9Targets 5 = [] :=
  ⟨RebalanceX.c9_needs,
    RebalanceX.generateActions_one_sided_empty RebalanceX.c9Balances
      RebalanceX.c9Targets 5 (Or.inr RebalanceX.c9_all_above)⟩

namespace RebalanceX

lemma sumPercentages_set (l : List ChainBalance) (g : ChainBalance → ℚ) :
    sumPercentages (l.map fun b => { b with percentage := g b }) = (l.map g).sum := by
  simp [sumPercentages, List.map_map]
  rfl

lemma sum_map_div100 (l : List ChainBalance) (f : ChainBalance → Int) :
    (l.map fun b => ((f b : Int) : ℚ) / 100).sum = (((l.map f).sum : Int) : ℚ) / 100 := by
  induction l with
  | nil => simp
  | cons a tl ih =>
    simp only [List.map_cons, List.sum_cons, ih]
    push_cast
    ring

lemma tdiv_bounds {a t : Int} (ha : 0 ≤ a) (ht : 0 < t) :
    t * Int.tdiv (a * 10000) t ≤ a * 10000 ∧
      a * 10000 + 1 ≤ t * Int.tdiv (a * 10000) t + t := by
  rw [Int.tdiv_eq_ediv (by positivity) (le_of_lt ht)]
  have h1 := Int.emod_add_ediv (a * 10000) t
  have h2 := Int.emod_nonneg (a * 10000) (ne_of_gt ht)
  have h3 := Int.emod_lt_of_pos (a * 10000) ht
  constructor <;> linarith

lemma sum_tdiv_upper (t : Int) (ht : 0 < t) :
    ∀ l : List ChainBalance, (∀ b ∈ l, 0 ≤ b.balance) →
      t * (l.map fun b => Int.tdiv (b.balance * 10000) t).sum ≤
        (l.map fun b => b.balance).sum * 10000 := by
  intro l
  induction l with
  | nil => intro _; simp
  | cons a tl ih =>
    intro h0
    have hq := (tdiv_bounds (h0 a (by simp)) ht).1
    have iht := ih fun b hb => h0 b (by simp [hb])
    simp only [List.map_cons, List.sum_cons, mul_add, add_mul]
    exact add_le_add hq iht

lemma sum_tdiv_lower (t : Int) (ht : 0 < t) :
    ∀ l : List ChainBalance, (∀ b ∈ l, 0 ≤ b.balance) →
      (l.map fun b => b.balance).sum * 10000 + l.length ≤
        t * (l.map fun b => Int.tdiv (b.balance * 10000) t).sum + t * l.length := by
  intro l
  induction l with
  | nil => intro _; simp
  | cons a tl ih =>
    intro h0
    have hq := (tdiv_bounds (h0 a (by simp)) ht).2
    have iht := ih fun b hb => h0 b (by simp [hb])
    simp only [List.map_cons, List.sum_cons, List.length_cons]
    push_cast
    push_cast at iht
    nlinarith [hq, iht]

end RebalanceX

/-- Counterexample to C1 as stated: with balances 1, 1, 4 the total is
positive but the truncated per-chain percentages are 16.66, 16.66 and
66.66, summing to 99.98, which misses 100 by 0.02, outside the claimed
tolerance of 0.01. -/
theorem RebalanceX.calculateAllocations_tolerance_cex :
    0 < RebalanceX.totalBalance
        [⟨RebalanceX.ChainName.sepolia, 1, 0⟩, ⟨RebalanceX.ChainName.polygonAmoy, 1, 0⟩,
         ⟨RebalanceX.ChainName.arbitrumSepolia, 4, 0⟩] ∧
      ¬ |RebalanceX.sumPercentages (RebalanceX.calculateAllocations
          [⟨RebalanceX.ChainName.sepolia, 1, 0⟩, ⟨RebalanceX.ChainName.polygonAmoy, 1, 0⟩,
           ⟨RebalanceX.ChainName.arbitrumSepolia, 4, 0⟩]) - 100| ≤ 1 / 100 := by
  constructor
  · decide
  · have h1 : Int.tdiv (10000 : Int) 6 = 1666 := by decide
    have h4 : Int.tdiv (40000 : Int) 6 = 6666 := by decide
    have hsum : RebalanceX.sumPercentages (RebalanceX.calculateAllocations
        [⟨RebalanceX.ChainName.sepolia, 1, 0⟩, ⟨RebalanceX.ChainName.polygonAmoy, 1, 0⟩,
         ⟨RebalanceX.ChainName.arbitrumSepolia, 4, 0⟩]) = 9998 / 100 := by
      have htot : RebalanceX.totalBalance
          [⟨RebalanceX.ChainName.sepolia, 1, 0⟩, ⟨RebalanceX.ChainName.polygonAmoy, 1, 0⟩,
           ⟨RebalanceX.ChainName.arbitrumSepolia, 4, 0⟩] = 6 := by decide
      simp only [RebalanceX.calculateAllocations, RebalanceX.sumPercentages, htot]
      norm_num [h1, h4]
    rw [not_le, hsum, lt_abs]
    right
    norm_num

/-- Claim C1, amended: for non-negative balances with positive total, the
computed percentages sum to 100 within a tolerance of 0.01 per chain:
the sum lies in the interval (100 - length/100, 100] (each truncating
division loses strictly less than 0.01); with three chains the slack can
reach 0.02, as the counterexample shows, so the fixed 0.01 tolerance of
the claim holds only per chain. When the total balance is zero, every
chain receives percentage 0. -/
theorem RebalanceX.calculateAllocations_sum_bounds
    (balances : List RebalanceX.ChainBalance)
    (h0 : ∀ b ∈ balances, 0 ≤ b.balance) :
    (0 < RebalanceX.totalBalance balances →
        100 - (balances.length : ℚ) / 100 <
            RebalanceX.sumPercentages (RebalanceX.calculateAllocations balances) ∧
          RebalanceX.sumPercentages (RebalanceX.calculateAllocations balances) ≤ 100) ∧
      (RebalanceX.totalBalance balances = 0 →
        ∀ b ∈ RebalanceX.calculateAllocations balances, b.percentage = 0) := by
  constructor
  · intro ht
    have htne : RebalanceX.totalBalance balances ≠ 0 := ne_of_gt ht
    have hcalc : RebalanceX.calculateAllocations balances =
        balances.map fun b => { b with percentage :=
          ((Int.tdiv (b.balance * 10000) (RebalanceX.totalBalance balances) : Int) : ℚ) / 100 } := by
      simp [RebalanceX.calculateAllocations, htne]
    rw [hcalc, RebalanceX.sumPercentages_set, RebalanceX.sum_map_div100]
    have hupper := RebalanceX.sum_tdiv_upper (RebalanceX.totalBalance balances) ht balances h0
    have hlower := RebalanceX.sum_tdiv_lower (RebalanceX.totalBalance balances) ht balances h0
    rw [← RebalanceX.totalBalance_eq_sum] at hupper hlower
    have hne : balances ≠ [] := fun hnil => htne (by rw [hnil]; rfl)
    have hlen : 1 ≤ balances.length := List.length_pos.mpr hne
    set S := (balances.map fun b =>
      Int.tdiv (b.balance * 10000) (RebalanceX.totalBalance balances)).sum with hS
    have hup : S ≤ 10000 := le_of_mul_le_mul_left hupper ht
    have hlo : (10000 : Int) - balances.length < S := by
      have hlenpos : (0 : Int) < balances.length := by exact_mod_cast hlen
      have hstrict : RebalanceX.totalBalance balances * 10000 <
          RebalanceX.totalBalance balances * (S + balances.length) := by
        have hexp : RebalanceX.totalBalance balances * (S + balances.length) =
            RebalanceX.totalBalance balances * S +
              RebalanceX.totalBalance balances * balances.length := by ring
        rw [hexp]
        linarith
      have hfin := lt_of_mul_lt_mul_left hstrict (le_of_lt ht)
      omega
    constructor
    · have hq : ((10000 : ℚ) - (balances.length : ℚ)) < (S : ℚ) := by
        qify at hlo
        exact_mod_cast hlo
      linarith
    · have hq : (S : ℚ) ≤ 10000 := by
        qify at hup
        exact hup
      linarith
  · intro hz b hb
    have hcalc : RebalanceX.calculateAllocations balances =
        balances.map (fun b => { b with percentage := 0 }) := by
      simp [RebalanceX.calculateAllocations, hz]
    rw [hcalc] at hb
    obtain ⟨c, _, rfl⟩ := List.mem_map.mp hb
    rfl

/-- Witness for the amended C1 at balances 1, 1, 4: the sum 99.98 indeed
lies in (100 - 3/100, 100]. -/
theorem RebalanceX.calculateAllocations_sum_bounds_witness :
    0 < RebalanceX.totalBalance
        [⟨RebalanceX.ChainName.sepolia, 1, 0⟩, ⟨RebalanceX.ChainName.polygonAmoy, 1, 0⟩,
         ⟨RebalanceX.ChainName.arbitrumSepolia, 4, 0⟩] ∧
      (100 - (([⟨RebalanceX.ChainName.sepolia, 1, 0⟩,
                 ⟨RebalanceX.ChainName.polygonAmoy, 1, 0⟩,
                 ⟨RebalanceX.ChainName.arbitrumSepolia, 4, 0⟩] :
          List RebalanceX.ChainBalance).length : ℚ) / 100 <
          RebalanceX.sumPercentages (RebalanceX.calculateAllocations
            [⟨RebalanceX.ChainName.sepolia, 1, 0⟩, ⟨RebalanceX.ChainName.polygonAmoy, 1, 0⟩,
             ⟨RebalanceX.ChainName.arbitrumSepolia, 4, 0⟩]) ∧
        RebalanceX.sumPercentages (RebalanceX.calculateAllocations
          [⟨RebalanceX.ChainName.sepolia, 1, 0⟩, ⟨RebalanceX.ChainName.polygonAmoy, 1, 0⟩,
           ⟨RebalanceX.ChainName.arbitrumSepolia, 4, 0⟩]) ≤ 100) :=
  ⟨by decide, (RebalanceX.calculateAllocations_sum_bounds _ (by decide)).1 (by decide)⟩

namespace RebalanceX

/-- Example 1 of the spec: balances 60, 20, 20 USDC (base units 10^6). -/
def example1Raw : List ChainBalance :=
  [⟨ChainName.sepolia, 60000000, 0⟩, ⟨ChainName.polygonAmoy, 20000000, 0⟩,
   ⟨ChainName.arbitrumSepolia, 20000000, 0⟩]

/-- Example 1 targets 40, 30, 30. -/
def example1Targets : List TargetAllocation :=
  [⟨ChainName.sepolia, 40⟩, ⟨ChainName.polygonAmoy, 30⟩,
   ⟨ChainName.arbitrumSepolia, 30⟩]

/-- Example 1 state as the cycle controller produces it: balances with
percentages computed by calculateAllocations. -/
def example1Balances : List ChainBalance := calculateAllocations example1Raw

lemma example1Balances_eval :
    example1Balances =
      [⟨ChainName.sepolia, 60000000, 60⟩, ⟨ChainName.polygonAmoy, 20000000, 20⟩,
       ⟨ChainName.arbitrumSepolia, 20000000, 20⟩] := by
  have htot : totalBalance example1Raw = 100000000 := by decide
  have h60 : Int.tdiv (600000000000 : Int) 100000000 = 6000 := by decide
  have h20 : Int.tdiv (200000000000 : Int) 100000000 = 2000 := by decide
  simp only [example1Balances, calculateAllocations, htot]
  norm_num [example1Raw, h60, h20]

lemma example1_devs :
    calculateDeviations
      [⟨ChainName.sepolia, 60000000, 60⟩, ⟨ChainName.polygonAmoy, 20000000, 20⟩,
       ⟨ChainName.arbitrumSepolia, 20000000, 20⟩] example1Targets =
    [⟨ChainName.sepolia, 60, 40, 20⟩, ⟨ChainName.polygonAmoy, 20, 30, -10⟩,
     ⟨ChainName.arbitrumSepolia, 20, 30, -10⟩] := by
  norm_num +decide [calculateDeviations, example1Targets, List.find?]

lemma example1_sort :
    sortByDevDesc
      [⟨ChainName.sepolia, 60, 40, 20⟩, ⟨ChainName.polygonAmoy, 20, 30, -10⟩,
       ⟨ChainName.arbitrumSepolia, 20, 30, -10⟩] =
    [⟨ChainName.sepolia, 60, 40, 20⟩, ⟨ChainName.polygonAmoy, 20, 30, -10⟩,
     ⟨ChainName.arbitrumSepolia, 20, 30, -10⟩] := by
  norm_num [sortByDevDesc, insertByDevDesc]

lemma ta40 : targetAmount 100000000 40 = 40000000 := by
  have hj : jsRound ((40 : ℚ) * 100) = 4000 := by norm_num [jsRound]
  rw [targetAmount, hj]
  decide

lemma ta30 : targetAmount 100000000 30 = 30000000 := by
  have hj : jsRound ((30 : ℚ) * 100) = 3000 := by norm_num [jsRound]
  rw [targetAmount, hj]
  decide

/-- Full run of the planner on Example 1: the tied under-allocated chains
polygonAmoy and arbitrumSepolia keep their input order in the stable
descending sort, and the subsequent reverse of the filtered list puts
arbitrumSepolia first, so the first transfer goes to arbitrumSepolia; the
loop body also leaves the caller balance list mutated to 40, 30, 30. -/
lemma example1_run :
    generateActionsRun example1Balances example1Targets 5 =
      ([⟨CHAINS ChainName.sepolia, CHAINS ChainName.arbitrumSepolia, 10000000⟩,
        ⟨CHAINS ChainName.sepolia, CHAINS ChainName.polygonAmoy, 10000000⟩],
       [⟨ChainName.sepolia, 40000000, 60⟩, ⟨ChainName.polygonAmoy, 30000000, 20⟩,
        ⟨ChainName.arbitrumSepolia, 30000000, 20⟩]) := by
  have htot : totalBalance
      [⟨ChainName.sepolia, 60000000, 60⟩, ⟨ChainName.polygonAmoy, 20000000, 20⟩,
       ⟨ChainName.arbitrumSepolia, 20000000, 20⟩] = 100000000 := by decide
  norm_num +decide [generateActionsRun, example1Balances_eval, htot, example1_devs,
    example1_sort, List.filter, pairLoop, findBal, List.find?, adjustBal, ta40, ta30]

end RebalanceX

/-- Counterexample to C2 as stated: on Example 1 the planner does not
emit the claimed order sepolia to polygonAmoy first; the equal deviations
of the two under-allocated chains make the filtered list reverse put
arbitrumSepolia first. -/
theorem RebalanceX.generateActions_example1_order_cex :
    RebalanceX.generateActions RebalanceX.example1Balances
        RebalanceX.example1Targets 5 ≠
      [⟨RebalanceX.CHAINS RebalanceX.ChainName.sepolia,
        RebalanceX.CHAINS RebalanceX.ChainName.polygonAmoy, 10000000⟩,
       ⟨RebalanceX.CHAINS RebalanceX.ChainName.sepolia,
        RebalanceX.CHAINS RebalanceX.ChainName.arbitrumSepolia, 10000000⟩] := by
  simp only [RebalanceX.generateActions, RebalanceX.example1_run]
  intro h
  have hhead : RebalanceX.CHAINS RebalanceX.ChainName.arbitrumSepolia =
      RebalanceX.CHAINS RebalanceX.ChainName.polygonAmoy := by
    have := List.head_eq_of_cons_eq h
    exact congrArg RebalanceX.RebalanceAction.toChain this
  exact absurd (congrArg RebalanceX.ChainConfig.cctpDomain hhead) (by decide)

/-- Claim C2, amended: on Example 1 (balances 60, 20, 20 USDC in base
units, targets 40/30/30, threshold 5) generateActions emits exactly two
actions, in order first sepolia to arbitrumSepolia for 10 USDC, then
sepolia to polygonAmoy for 10 USDC, and the total transferred amount is
20 USDC (base units 10^6). -/
theorem RebalanceX.generateActions_example1 :
    RebalanceX.generateActions RebalanceX.example1Balances
        RebalanceX.example1Targets 5 =
      [⟨RebalanceX.CHAINS RebalanceX.ChainName.sepolia,
        RebalanceX.CHAINS RebalanceX.ChainName.arbitrumSepolia, 10000000⟩,
       ⟨RebalanceX.CHAINS RebalanceX.ChainName.sepolia,
        RebalanceX.CHAINS RebalanceX.ChainName.polygonAmoy, 10000000⟩] ∧
      ((RebalanceX.generateActions RebalanceX.example1Balances
          RebalanceX.example1Targets 5).map fun a => a.amount).sum = 20000000 := by
  constructor
  · simp only [RebalanceX.generateActions, RebalanceX.example1_run]
  · simp only [RebalanceX.generateActions, RebalanceX.example1_run]
    decide

/-- Claim C3: the pairing walk decrements balances on the entries of the
caller-supplied currentBalances list itself, not on a copy: after the
Example 1 run the balance list differs from the input, with the sepolia
entry at 40000000 instead of its original 60000000. -/
theorem RebalanceX.generateActions_mutates_caller_balances :
    (RebalanceX.generateActionsRun RebalanceX.example1Balances
        RebalanceX.example1Targets 5).2 ≠ RebalanceX.example1Balances ∧
      (RebalanceX.findBal (RebalanceX.generateActionsRun RebalanceX.example1Balances
          RebalanceX.example1Targets 5).2 RebalanceX.ChainName.sepolia).balance =
        40000000 ∧
      (RebalanceX.findBal RebalanceX.example1Balances
          RebalanceX.ChainName.sepolia).balance = 60000000 := by
  have h2 : (RebalanceX.findBal (RebalanceX.generateActionsRun
      RebalanceX.example1Balances RebalanceX.example1Targets 5).2
      RebalanceX.ChainName.sepolia).balance = 40000000 := by
    rw [RebalanceX.example1_run]
    rfl
  have h3 : (RebalanceX.findBal RebalanceX.example1Balances
      RebalanceX.ChainName.sepolia).balance = 60000000 := by
    rw [RebalanceX.example1Balances_eval]
    rfl
  refine ⟨fun h => ?_, h2, h3⟩
  rw [h, h3] at h2
  exact absurd h2 (by decide)
